import Mathlib

/-!
Shallow embedding of `src/queue_wait_time.py` (queue wait time estimator).

Conventions of the embedding:
* Python floats are modelled as rationals (`ℚ`); float literals such as
  `1.1`, `0.9`, `0.7`, `1.3`, `0.05` become the corresponding rationals.
* The estimator's timestamps are modelled as integers counting whole
  seconds.  The Python code computes an interval as
  `(timestamps[i] - timestamps[i-1]).seconds / 60`; for whole-second
  datetimes, `timedelta.seconds` is the total number of seconds reduced
  modulo one day (86400), always in `[0, 86400)`, which is `Int.emod`
  below.  The result is divided by 60 to yield minutes.
* `np.mean xs` is `xs.sum / xs.length`; `np.std` (with numpy's default
  `ddof = 0`) is the square root of `npVar` below.  Since both sides of
  every standard-deviation comparison in the source are nonnegative,
  each comparison `np.std xs < c` (resp. `a > b * 2`) is embedded as the
  exactly equivalent variance comparison `npVar xs < c ^ 2`
  (resp. `npVar a > npVar b * 4`), keeping the development in `ℚ`.
* The mutable `self` of `WaitTimeEstimator` is threaded explicitly: a
  method that can mutate `self` takes the estimator state and returns
  the new state alongside its Python return value.  The Python method
  `estimate_wait_time` performs no assignment to `self`, so its embedding
  returns the state unchanged; `detect_anomalies` reads only its list
  argument and no attribute of `self`, so it is embedded as a plain
  function of that list.
* `random.uniform(0.7, 1.3)` and `random.random() < 0.05` in the
  generator are modelled by oracle streams `complexity : ℕ → ℚ` and
  ` interrupt : ℕ → Bool`, consumed one entry per generated event.
-/

namespace QueueWaitTime

/-- The trend classification returned by `calculate_service_rate`
(the Python strings `'speeding_up'`, `'slowing_down'`, `'stable'`). -/
inductive Trend where
  | speeding_up
  | slowing_down
  | stable
deriving DecidableEq, Repr

/-- The confidence label returned by `estimate_wait_time`
(the Python strings `'High'`, `'Medium'`, `'Low'`). -/
inductive Confidence where
  | Low
  | Medium
  | High
deriving DecidableEq, Repr

/-- `np.mean` of a list of rationals: sum divided by length. -/
def npMean (xs : List ℚ) : ℚ := xs.sum / (xs.length : ℚ)

/-- Population variance (numpy `ddof = 0`), the square of `np.std`:
mean of the squared deviations from the mean. -/
def npVar (xs : List ℚ) : ℚ := npMean (xs.map fun x => (x - npMean xs) ^ 2)

/-- The mutable state of the Python `WaitTimeEstimator` object:
`window_size`, the rate history `service_rates`, and the prediction
history `predictions` (the unused `confidence_scores` list is omitted:
no method of the class ever reads or writes it). -/
structure WaitTimeEstimator where
  window_size : ℕ
  service_rates : List ℚ
  predictions : List (ℚ × Confidence)
deriving DecidableEq, Repr

/-- The interval list of `calculate_service_rate`:
`(timestamps[i] - timestamps[i-1]).seconds / 60` for `i = 1 .. n-1`,
with `timedelta.seconds` embedded as reduction modulo 86400 seconds
(see the file header). -/
def minuteIntervals (timestamps : List ℤ) : List ℚ :=
  (timestamps.zip timestamps.tail).map fun p => (((p.2 - p.1).emod 86400 : ℤ) : ℚ) / 60

/-- `WaitTimeEstimator.calculate_service_rate(self, timestamps)`:
returns `(service_rate, trend)` together with the updated estimator
state (the method appends the computed rate to `self.service_rates`
on the path where `len(timestamps) >= 2`). -/
def calculate_service_rate (est : WaitTimeEstimator) (timestamps : List ℤ) :
    (ℚ × Trend) × WaitTimeEstimator :=
  if timestamps.length < 2 then ((0, Trend.stable), est)
  else
    let intervals := minuteIntervals timestamps
    let avg_interval := npMean intervals
    let current_rate := if 0 < avg_interval then 1 / avg_interval else 0
    let rates := est.service_rates ++ [current_rate]
    let trend :=
      if rates.length < 3 then Trend.stable
      else
        let recent_avg := npMean (rates.drop (rates.length - 3))
        let historical_avg :=
          if 3 < rates.length then npMean (rates.take (rates.length - 3)) else recent_avg
        if historical_avg * (11/10) < recent_avg then Trend.speeding_up
        else if recent_avg < historical_avg * (9/10) then Trend.slowing_down
        else Trend.stable
    ((current_rate, trend), { est with service_rates := rates })

/-- `WaitTimeEstimator.estimate_wait_time(self, service_rate, trend)`:
returns `(estimated_wait, confidence)`; the method never assigns to
`self`, so the state comes back unchanged.  The Python comparison
`np.std(self.service_rates[-5:]) < 0.1` is embedded as the equivalent
variance comparison `npVar _ < (1/10)^2 = 1/100`. -/
def estimate_wait_time (est : WaitTimeEstimator) (service_rate : ℚ) (trend : Trend) :
    (ℚ × Confidence) × WaitTimeEstimator :=
  if service_rate = 0 then ((0, Confidence.Low), est)
  else
    let estimated_queue_length : ℚ := 5
    let estimated_queue_length :=
      if trend = Trend.slowing_down then estimated_queue_length * (3/2)
      else if trend = Trend.speeding_up then estimated_queue_length * (7/10)
      else estimated_queue_length
    let estimated_wait := estimated_queue_length / service_rate
    let confidence :=
      if est.service_rates.length < 5 then Confidence.Low
      else if npVar (est.service_rates.drop (est.service_rates.length - 5)) < 1/100 then
        Confidence.High
      else Confidence.Medium
    ((estimated_wait, confidence), est)

/-- The anomaly message of the high-variability branch of `detect_anomalies`. -/
def highVariabilityMsg : String :=
  "High service variability detected - possible staff interruptions"

/-- The anomaly message of the sudden-slowdown branch of `detect_anomalies`. -/
def majorSlowdownMsg : String :=
  "Major slowdown detected - possible system issue"

/-- `WaitTimeEstimator.detect_anomalies(self, service_rates)`: reads only
its `service_rates` argument (no attribute of `self`), hence a plain
function.  The comparison `recent_std > historical_std * 2` of the
source is embedded as the equivalent variance comparison
`historical_var * 4 < recent_var` (both standard deviations are
nonnegative, and `np.std = sqrt npVar`). -/
def detect_anomalies (service_rates : List ℚ) : Option String :=
  if service_rates.length < 5 then none
  else
    let recent := service_rates.drop (service_rates.length - 5)
    let historical :=
      if 5 < service_rates.length then service_rates.take (service_rates.length - 5)
      else recent
    let recent_var := npVar recent
    let historical_var := if 1 < historical.length then npVar historical else recent_var
    if historical_var * 4 < recent_var then some highVariabilityMsg
    else if npMean recent < npMean historical * (1/2) then some majorSlowdownMsg
    else none

/-- A record of `QueueSimulator.generate_synthetic_data`'s
`self.service_completions` dictionary: completion timestamp (in minutes
from the simulation start), `customer_id`, and `actual_service_time`. -/
structure CompletionEvent where
  timestamp : ℚ
  customer_id : ℕ
  actual_service_time : ℚ
deriving DecidableEq, Repr

/-- The hidden regime parameters of `generate_synthetic_data` for a
given hour: `(service_multiplier, customers_per_hour)`, selected by the
`self.patterns` bounds `morning_rush (0,2)`, `midday_slowdown (2,5)`,
`afternoon_recovery (5,7)`, else evening rush. -/
def regimeParams (hour : ℕ) : ℚ × ℕ :=
  if 0 ≤ hour ∧ hour < 2 then (4/5, 15)
  else if 2 ≤ hour ∧ hour < 5 then (3/2, 8)
  else if 5 ≤ hour ∧ hour < 7 then (1, 12)
  else (9/10, 14)

/-- The per-event service multipliers produced by the two nested loops of
`generate_synthetic_data`: for each `hour in range(hours)`, the hour's
multiplier repeated `customers_per_hour` times, in order. -/
def hourMultipliers (hours : ℕ) : List ℚ :=
  (List.range hours).flatMap fun h => List.replicate (regimeParams h).2 (regimeParams h).1

/-- The inner event loop of `generate_synthetic_data`, one step per
event: given the remaining per-event multipliers, the running clock
`current_time` (minutes), the next `customer_id` and the index of the
next random draw, emit the events in order.  Each step draws a
complexity factor and an interruption flag, computes
`service_time = base * multiplier * complexity` (+10 minutes on an
interruption), advances the clock and records the completion. -/
def genEvents (base_service_time : ℚ) (complexity : ℕ → ℚ) ( interrupt : ℕ → Bool) :
    List ℚ → ℚ → ℕ → ℕ → List CompletionEvent
  | [], _, _, _ => []
  | m :: ms, current_time, customer_id, draw =>
    let service_time0 := base_service_time * m * complexity draw
    let service_time := if interrupt draw then service_time0 + 10 else service_time0
    let t := current_time + service_time
    { timestamp := t, customer_id := customer_id, actual_service_time := service_time } ::
      genEvents base_service_time complexity interrupt ms t (customer_id + 1) (draw + 1)

/-- `QueueSimulator.generate_synthetic_data`: the full ordered event
stream, starting the clock at `start_time` and the ids at 1, with the
randomness supplied by the oracle streams (see the file header).  The
parallel validation list `actual_wait_times` is not needed by any claim
and is not modelled. -/
def generate_synthetic_data (hours : ℕ) (base_service_time : ℚ)
    (complexity : ℕ → ℚ) ( interrupt : ℕ → Bool) (start_time : ℚ) : List CompletionEvent :=
  genEvents base_service_time complexity interrupt (hourMultipliers hours) start_time 1 0

end QueueWaitTime

namespace QueueWaitTime

/-! ## Helper lemmas -/

/-- The mean of a list of nonnegative rationals is nonnegative. -/
theorem npMean_nonneg {xs : List ℚ} (h : ∀ x ∈ xs, 0 ≤ x) : 0 ≤ npMean xs :=
  div_nonneg (List.sum_nonneg h) (by positivity)

/-- Population variance is always nonnegative. -/
theorem npVar_nonneg (xs : List ℚ) : 0 ≤ npVar xs := by
  refine npMean_nonneg ?_
  intro y hy
  simp only [List.mem_map] at hy
  obtain ⟨x, -, rfl⟩ := hy
  positivity

/-- Each interval of `minuteIntervals` is nonnegative, because
`timedelta.seconds` (embedded as `Int.emod _ 86400`) always lies in
`[0, 86400)`. -/
theorem minuteIntervals_nonneg (timestamps : List ℤ) :
    ∀ q ∈ minuteIntervals timestamps, 0 ≤ q := by
  intro q hq
  simp only [minuteIntervals, List.mem_map] at hq
  obtain ⟨p, -, rfl⟩ := hq
  have h0 : (0 : ℤ) ≤ (p.2 - p.1).emod 86400 := Int.emod_nonneg _ (by norm_num)
  have h0q : (0 : ℚ) ≤ (((p.2 - p.1).emod 86400 : ℤ) : ℚ) := by exact_mod_cast h0
  positivity

end QueueWaitTime

namespace QueueWaitTime

/-! ## Claim theorems -/

/-- Claim C1: for every service rate `rate > 0` and every trend value,
`estimate_wait_time` returns `wait = (5 * m) / rate`, where `m = 3/2` if
the trend is `slowing_down`, `m = 7/10` if `speeding_up`, and `m = 1` if
`stable`; in particular `rate = 1/2` with trend `slowing_down` yields an
adjusted queue length of `15/2` and a wait of 15 minutes. -/
theorem estimate_wait_time_wait_formula (est : WaitTimeEstimator) (rate : ℚ)
    (h : 0 < rate) :
    (∀ trend : Trend,
      (estimate_wait_time est rate trend).1.1 =
        5 * (match trend with
             | Trend.slowing_down => (3 : ℚ)/2
             | Trend.speeding_up => 7/10
             | Trend.stable => 1) / rate) ∧
    (estimate_wait_time est (1/2) Trend.slowing_down).1.1 = 15 := by
  constructor
  · intro trend
    cases trend <;> simp [estimate_wait_time, h.ne']
  · norm_num [estimate_wait_time]

/-- Witness for C1 at `rate = 1/2`, trend `slowing_down`. -/
theorem estimate_wait_time_wait_formula_w :
    (estimate_wait_time ⟨10, [], []⟩ (1/2) Trend.slowing_down).1.1 = 15 :=
  (estimate_wait_time_wait_formula ⟨10, [], []⟩ (1/2) (by norm_num)).2

/-- Claim C2: with fewer than 2 timestamps `calculate_service_rate`
returns `(0, stable)` (and an unchanged state); with at least 2
timestamps the returned rate is the reciprocal of the mean consecutive
inter-event interval, or 0 when that mean is 0. -/
theorem calculate_service_rate_rate_value (est : WaitTimeEstimator)
    (timestamps : List ℤ) :
    (timestamps.length < 2 →
       calculate_service_rate est timestamps = ((0, Trend.stable), est)) ∧
    (2 ≤ timestamps.length →
       (calculate_service_rate est timestamps).1.1 =
         if npMean (minuteIntervals timestamps) = 0 then 0
         else 1 / npMean (minuteIntervals timestamps)) := by
  constructor
  · intro h
    simp [calculate_service_rate, h]
  · intro h
    have hnn : 0 ≤ npMean (minuteIntervals timestamps) :=
      npMean_nonneg (minuteIntervals_nonneg timestamps)
    rw [calculate_service_rate, if_neg (by omega)]
    by_cases h0 : npMean (minuteIntervals timestamps) = 0
    · simp [h0]
    · have hpos : 0 < npMean (minuteIntervals timestamps) :=
        lt_of_le_of_ne hnn (Ne.symm h0)
      simp [h0, hpos]

/-- Witness for C2 on the two-timestamp window `[0, 300]` seconds
(one 5-minute interval). -/
theorem calculate_service_rate_rate_value_w :
    (calculate_service_rate ⟨10, [], []⟩ [0, 300]).1.1 =
      if npMean (minuteIntervals [0, 300]) = 0 then 0
      else 1 / npMean (minuteIntervals [0, 300]) :=
  (calculate_service_rate_rate_value ⟨10, [], []⟩ [0, 300]).2 (by norm_num)

/-- Counterexample to claim C3 as stated: a call with an empty window
does not append to the rate history (the history stays at length 0,
not 1). -/
theorem calculate_service_rate_short_no_append :
    ¬ ((calculate_service_rate ⟨10, [], []⟩ []).2.service_rates.length =
        (WaitTimeEstimator.mk 10 [] []).service_rates.length + 1) := by
  simp [calculate_service_rate]

/-- Claim C3 (amended): a call to `calculate_service_rate` with at least
2 timestamps appends exactly the returned rate to `service_rates`; a
call with fewer than 2 timestamps returns `(0, stable)` and leaves the
whole state unchanged. -/
theorem calculate_service_rate_append (est : WaitTimeEstimator)
    (timestamps : List ℤ) :
    (2 ≤ timestamps.length →
       (calculate_service_rate est timestamps).2.service_rates =
         est.service_rates ++ [(calculate_service_rate est timestamps).1.1]) ∧
    (timestamps.length < 2 →
       calculate_service_rate est timestamps = ((0, Trend.stable), est)) := by
  constructor
  · intro h
    rw [calculate_service_rate, if_neg (by omega)]
  · intro h
    simp [calculate_service_rate, h]

/-- Witness for C3 (amended) on the window `[0, 300]`. -/
theorem calculate_service_rate_append_w :
    (calculate_service_rate ⟨10, [], []⟩ [0, 300]).2.service_rates =
      (WaitTimeEstimator.mk 10 [] []).service_rates ++
        [(calculate_service_rate ⟨10, [], []⟩ [0, 300]).1.1] :=
  (calculate_service_rate_append ⟨10, [], []⟩ [0, 300]).1 (by norm_num)

/-- Claim C5: `estimate_wait_time` with rate 0 returns wait 0 and
confidence `Low`, for every trend and every estimator state. -/
theorem estimate_wait_time_zero_rate (est : WaitTimeEstimator) (trend : Trend) :
    estimate_wait_time est 0 trend = ((0, Confidence.Low), est) := by
  simp [estimate_wait_time]

/-- Claim C7: `detect_anomalies` on a history of fewer than 5 samples
returns `none`. -/
theorem detect_anomalies_insufficient (service_rates : List ℚ)
    (h : service_rates.length < 5) : detect_anomalies service_rates = none := by
  simp [detect_anomalies, h]

/-- Witness for C7 on a three-sample history. -/
theorem detect_anomalies_insufficient_w : detect_anomalies [1, 2, 3] = none :=
  detect_anomalies_insufficient [1, 2, 3] (by norm_num)

end QueueWaitTime

namespace QueueWaitTime

/-- Modelled from the claim's wording of the trend policy (spec §4.2):
with fewer than 3 accumulated samples the trend is stable; otherwise
`recent` is the mean of the last 3 samples and `historical` the mean of
all samples before those last 3, falling back to `recent` when fewer
than 4 samples exist in total; speeding up when
`recent > historical * 1.1`, slowing down when
`recent < historical * 0.9`, else stable.  Stated for comparison with
the trend computed inside `calculate_service_rate`. -/
def trendPolicySpec (rates : List ℚ) : Trend :=
  if rates.length < 3 then Trend.stable
  else
    let recent := npMean (rates.drop (rates.length - 3))
    let historical :=
      if rates.length < 4 then recent else npMean (rates.take (rates.length - 3))
    if historical * (11/10) < recent then Trend.speeding_up
    else if recent < historical * (9/10) then Trend.slowing_down
    else Trend.stable

/-- The trend branch of `calculate_service_rate` agrees with
`trendPolicySpec` on any sample list (the source tests
`3 < len` with swapped branches where the claim says `len < 4`). -/
theorem trend_branch_eq_spec (rates : List ℚ) :
    (if rates.length < 3 then Trend.stable
     else
       let recent_avg := npMean (rates.drop (rates.length - 3))
       let historical_avg :=
         if 3 < rates.length then npMean (rates.take (rates.length - 3)) else recent_avg
       if historical_avg * (11/10) < recent_avg then Trend.speeding_up
       else if recent_avg < historical_avg * (9/10) then Trend.slowing_down
       else Trend.stable) = trendPolicySpec rates := by
  rw [trendPolicySpec]
  by_cases h3 : rates.length < 3
  · simp [h3]
  · by_cases hgt : 3 < rates.length
    · have h4 : ¬ (rates.length < 4) := by omega
      simp only [if_neg h3, if_pos hgt, if_neg h4]
    · have h4 : rates.length < 4 := by omega
      simp only [if_neg h3, if_neg hgt, if_pos h4]

/-- Claim C4: for every call of `calculate_service_rate` on a window of
at least 2 timestamps, the returned trend follows the spec's trend
policy applied to the accumulated rate history after the append (the
history held by the returned state). -/
theorem calculate_service_rate_trend (est : WaitTimeEstimator)
    (timestamps : List ℤ) (h : 2 ≤ timestamps.length) :
    (calculate_service_rate est timestamps).1.2 =
      trendPolicySpec ((calculate_service_rate est timestamps).2.service_rates) := by
  rw [calculate_service_rate, if_neg (by omega)]
  exact trend_branch_eq_spec _

/-- Witness for C4 on a three-timestamp window. -/
theorem calculate_service_rate_trend_w :
    (calculate_service_rate ⟨10, [], []⟩ [0, 60, 120]).1.2 =
      trendPolicySpec
        ((calculate_service_rate ⟨10, [], []⟩ [0, 60, 120]).2.service_rates) :=
  calculate_service_rate_trend ⟨10, [], []⟩ [0, 60, 120] (by norm_num)

end QueueWaitTime

namespace QueueWaitTime

/-- The confidence component of `estimate_wait_time` on the nonzero-rate
path, read off the source's if-chain. -/
theorem confidence_component_eq (est : WaitTimeEstimator) (rate : ℚ)
    (trend : Trend) (h0 : rate ≠ 0) :
    (estimate_wait_time est rate trend).1.2 =
      if est.service_rates.length < 5 then Confidence.Low
      else if npVar (est.service_rates.drop (est.service_rates.length - 5)) < 1/100 then
        Confidence.High
      else Confidence.Medium := by
  rw [estimate_wait_time, if_neg h0]

/-- Claim C6: the confidence returned by `estimate_wait_time` is never
`High` with fewer than 5 accumulated rate samples; and for every
`rate > 0` it is `Low` exactly when the history holds fewer than 5
samples, `High` exactly when it holds at least 5 samples and the
standard deviation of the last 5 (equivalently, their variance below
`(1/10)^2 = 1/100`) is below `1/10`, and `Medium` otherwise. -/
theorem estimate_wait_time_confidence (est : WaitTimeEstimator) (rate : ℚ)
    (trend : Trend) :
    (est.service_rates.length < 5 →
       (estimate_wait_time est rate trend).1.2 ≠ Confidence.High) ∧
    (0 < rate →
      (((estimate_wait_time est rate trend).1.2 = Confidence.Low ↔
          est.service_rates.length < 5) ∧
       ((estimate_wait_time est rate trend).1.2 = Confidence.High ↔
          5 ≤ est.service_rates.length ∧
            npVar (est.service_rates.drop (est.service_rates.length - 5)) < 1/100) ∧
       ((estimate_wait_time est rate trend).1.2 = Confidence.Medium ↔
          5 ≤ est.service_rates.length ∧
            ¬ npVar (est.service_rates.drop (est.service_rates.length - 5)) < 1/100))) := by
  by_cases h0 : rate = 0
  · subst h0
    refine ⟨fun _ => ?_, fun hpos => absurd rfl (ne_of_gt hpos)⟩
    simp [estimate_wait_time]
  · rw [confidence_component_eq est rate trend h0]
    by_cases h5 : est.service_rates.length < 5
    · simp [h5]
    · by_cases hv :
        npVar (est.service_rates.drop (est.service_rates.length - 5)) < 1/100
      · rw [if_neg h5, if_pos hv]
        simp [h5, hv, Nat.le_of_not_lt h5]
        exact fun _ => by simpa using hv
      · rw [if_neg h5, if_neg hv]
        simp [h5, hv, Nat.le_of_not_lt h5]
        exact fun _ => by simpa using not_lt.mp hv

/-- Witness for C6: with the five identical recent samples `[1/2, 1/2,
1/2, 1/2, 1/2]` (variance 0) and `rate = 1`, the confidence is `High`. -/
theorem estimate_wait_time_confidence_w :
    (estimate_wait_time ⟨10, [1/2, 1/2, 1/2, 1/2, 1/2], []⟩ 1 Trend.stable).1.2 =
      Confidence.High :=
  ((estimate_wait_time_confidence ⟨10, [1/2, 1/2, 1/2, 1/2, 1/2], []⟩ 1
      Trend.stable).2 (by norm_num)).2.1.mpr
    ⟨by norm_num, by norm_num [npVar, npMean]⟩

/-- Claim C9: the histories are append-only.  A call to
`calculate_service_rate` extends `service_rates` by a (possibly empty)
suffix and leaves `predictions` untouched; a call to
`estimate_wait_time` returns the estimator state entirely unchanged
(`detect_anomalies` is a function of its list argument alone and holds
no state at all). -/
theorem estimator_histories_append_only (est : WaitTimeEstimator)
    (timestamps : List ℤ) (rate : ℚ) (trend : Trend) :
    (∃ appended, (calculate_service_rate est timestamps).2.service_rates =
        est.service_rates ++ appended) ∧
    (calculate_service_rate est timestamps).2.predictions = est.predictions ∧
    (estimate_wait_time est rate trend).2 = est := by
  refine ⟨?_, ?_, ?_⟩
  · by_cases h : timestamps.length < 2
    · exact ⟨[], by simp [calculate_service_rate, h]⟩
    · exact ⟨[(calculate_service_rate est timestamps).1.1], by
        rw [calculate_service_rate, if_neg h]⟩
  · by_cases h : timestamps.length < 2 <;> simp [calculate_service_rate, h]
  · by_cases h : rate = 0 <;> simp [estimate_wait_time, h]

end QueueWaitTime

namespace QueueWaitTime

/-- Counterexample to claim C8 as stated: the source substitutes the
recent standard deviation only for the historical *standard deviation*,
not for the historical *mean*, so a rate history of length 6 can
report an anomaly: on `[10, 1, 1, 1, 1, 1]` the recent mean 1 is below
half the single historical sample 10 and a major slowdown is
reported. -/
theorem detect_anomalies_len6_fires :
    ([10, 1, 1, 1, 1, 1] : List ℚ).length = 6 ∧
    detect_anomalies [10, 1, 1, 1, 1, 1] = some majorSlowdownMsg := by
  refine ⟨rfl, ?_⟩
  norm_num [detect_anomalies, npVar, npMean]

/-- Claim C8 (amended): with at least 5 samples the last 5 form
`recent`; when fewer than 2 samples precede them only the historical
standard deviation falls back to the recent one (the historical mean
does not).  Hence a nonnegative rate history of length exactly 5 never
reports an anomaly, and a history of length 6 never reports the
high-variability anomaly (though it can report a major slowdown). -/
theorem detect_anomalies_degenerate (service_rates : List ℚ) :
    ((∀ x ∈ service_rates, 0 ≤ x) → service_rates.length = 5 →
       detect_anomalies service_rates = none) ∧
    (service_rates.length = 6 →
       detect_anomalies service_rates = none ∨
       detect_anomalies service_rates = some majorSlowdownMsg) := by
  constructor
  · intro hnn h5
    have hvar : 0 ≤ npVar service_rates := npVar_nonneg service_rates
    have hmean : 0 ≤ npMean service_rates := npMean_nonneg hnn
    simp only [detect_anomalies, h5]
    norm_num
    rw [if_neg (by linarith), if_neg (by linarith)]
  · intro h6
    have hvar : 0 ≤ npVar service_rates.tail := npVar_nonneg service_rates.tail
    simp only [detect_anomalies, h6]
    norm_num
    rw [if_neg (by linarith)]
    by_cases hm :
      npMean service_rates.tail < npMean (service_rates.take 1) * (1/2)
    · exact Or.inr (by rw [if_pos hm])
    · exact Or.inl (by rw [if_neg hm])

/-- Witness for C8 (amended) on the five-sample history `[1, 1, 1, 1, 1]`. -/
theorem detect_anomalies_degenerate_w :
    detect_anomalies [1, 1, 1, 1, 1] = none :=
  (detect_anomalies_degenerate [1, 1, 1, 1, 1]).1 (by norm_num) (by norm_num)

end QueueWaitTime

namespace QueueWaitTime

/-- Every regime's service multiplier is positive. -/
theorem regimeParams_fst_pos (hour : ℕ) : 0 < (regimeParams hour).1 := by
  rw [regimeParams]
  split_ifs <;> norm_num

/-- Every per-event multiplier of the generator is positive. -/
theorem hourMultipliers_pos (hours : ℕ) :
    ∀ m ∈ hourMultipliers hours, 0 < m := by
  intro m hm
  simp only [hourMultipliers, List.mem_flatMap] at hm
  obtain ⟨h, -, hm⟩ := hm
  rw [List.eq_of_mem_replicate hm]
  exact regimeParams_fst_pos h

/-- `genEvents` emits one event per multiplier. -/
theorem genEvents_length (base_service_time : ℚ) (complexity : ℕ → ℚ)
    ( interrupt : ℕ → Bool) :
    ∀ (ms : List ℚ) (t : ℚ) (cid draw : ℕ),
      (genEvents base_service_time complexity interrupt ms t cid draw).length =
        ms.length := by
  intro ms
  induction ms with
  | nil => intro t cid draw; rfl
  | cons m ms ih => intro t cid draw; simp [genEvents, ih]

/-- The customer ids emitted by `genEvents` are consecutive from `cid`. -/
theorem genEvents_ids (base_service_time : ℚ) (complexity : ℕ → ℚ)
    ( interrupt : ℕ → Bool) :
    ∀ (ms : List ℚ) (t : ℚ) (cid draw : ℕ),
      (genEvents base_service_time complexity interrupt ms t cid draw).map
          (fun e => e.customer_id) =
        List.range' cid ms.length := by
  intro ms
  induction ms with
  | nil => intro t cid draw; rfl
  | cons m ms ih =>
    intro t cid draw
    simp [genEvents, ih, List.range'_succ]

/-- With a positive base duration, positive complexity draws and
positive multipliers, every event of `genEvents` is stamped strictly
after the running clock, and the emitted timestamps strictly
increase. -/
theorem genEvents_timestamps (base_service_time : ℚ) (complexity : ℕ → ℚ)
    ( interrupt : ℕ → Bool) (hbase : 0 < base_service_time)
    (hcomp : ∀ i, 0 < complexity i) :
    ∀ (ms : List ℚ), (∀ m ∈ ms, 0 < m) → ∀ (t : ℚ) (cid draw : ℕ),
      List.Chain' (fun a b => a.timestamp < b.timestamp)
          (genEvents base_service_time complexity interrupt ms t cid draw) ∧
      ∀ e ∈ genEvents base_service_time complexity interrupt ms t cid draw,
        t < e.timestamp := by
  intro ms
  induction ms with
  | nil => intro _ t cid draw; simp [genEvents]
  | cons m ms ih =>
    intro hms t cid draw
    have hm : 0 < m := hms m (List.mem_cons_self m ms)
    have hst0 : 0 < base_service_time * m * complexity draw :=
      mul_pos (mul_pos hbase hm) (hcomp draw)
    have hst : 0 < (if interrupt draw then base_service_time * m * complexity draw + 10
                    else base_service_time * m * complexity draw) := by
      split_ifs <;> linarith
    obtain ⟨ihc, ihgt⟩ :=
      ih (fun x hx => hms x (List.mem_cons_of_mem m hx))
        (t + (if interrupt draw then base_service_time * m * complexity draw + 10
              else base_service_time * m * complexity draw)) (cid + 1) (draw + 1)
    rw [genEvents]
    constructor
    · refine List.chain'_cons'.mpr ⟨?_, ihc⟩
      intro y hy
      exact ihgt y (List.mem_of_mem_head? hy)
    · intro e he
      rcases List.mem_cons.mp he with rfl | he
      · show t < t + _
        linarith
      · have := ihgt e he
        linarith
end QueueWaitTime

namespace QueueWaitTime

/-- Counterexample to claim C10 as stated: the claim quantifies over
*every* base service duration, but with `base_service_time = 0` (and no
interruptions) every service time is 0, so all 15 first-hour event
timestamps coincide and the stream is not strictly increasing. -/
theorem generate_synthetic_data_zero_base_not_increasing :
    ¬ List.Chain' (fun a b => a.timestamp < b.timestamp)
        (generate_synthetic_data 1 0 (fun _ => 1) (fun _ => false) 0) := by
  norm_num [generate_synthetic_data, hourMultipliers, regimeParams, genEvents,
    List.chain'_cons]

/-- Claim C10 (amended): for every horizon, every *positive* base
service duration, every start time and every outcome of the complexity
draws (which `random.uniform(0.7, 1.3)` confines to `[7/10, 13/10]`)
and of the interruption draws, the generated event stream has strictly
increasing timestamps and contiguous customer ids `1, 2, ...`. -/
theorem generate_synthetic_data_ordered (hours : ℕ) (base_service_time : ℚ)
    (complexity : ℕ → ℚ) ( interrupt : ℕ → Bool) (start_time : ℚ)
    (hbase : 0 < base_service_time)
    (hcomp : ∀ i, 7/10 ≤ complexity i ∧ complexity i ≤ 13/10) :
    List.Chain' (fun a b => a.timestamp < b.timestamp)
        (generate_synthetic_data hours base_service_time complexity
          interrupt start_time) ∧
    (generate_synthetic_data hours base_service_time complexity
        interrupt start_time).map (fun e => e.customer_id) =
      List.range' 1
        (generate_synthetic_data hours base_service_time complexity
          interrupt start_time).length := by
  have hcpos : ∀ i, 0 < complexity i :=
    fun i => lt_of_lt_of_le (by norm_num) (hcomp i).1
  constructor
  · exact (genEvents_timestamps base_service_time complexity interrupt hbase hcpos
      (hourMultipliers hours) (hourMultipliers_pos hours) start_time 1 0).1
  · rw [generate_synthetic_data, genEvents_ids, genEvents_length]

/-- Witness for C10 (amended): one hour, base duration 4 minutes, all
complexities 1, no interruptions. -/
theorem generate_synthetic_data_ordered_w :
    List.Chain' (fun a b => a.timestamp < b.timestamp)
        (generate_synthetic_data 1 4 (fun _ => 1) (fun _ => false) 0) ∧
    (generate_synthetic_data 1 4 (fun _ => 1) (fun _ => false) 0).map
        (fun e => e.customer_id) =
      List.range' 1
        (generate_synthetic_data 1 4 (fun _ => 1) (fun _ => false) 0).length :=
  generate_synthetic_data_ordered 1 4 (fun _ => 1) (fun _ => false) 0
    (by norm_num) (fun i => by norm_num)

end QueueWaitTime
